import Mathlib

/-!
Shallow embedding of the onlineshop-node-api order/inventory core and the
product-image routes, translated from `src/api/orders.ts`, `src/api/admin.ts`
(PUT /admin/orders/:id/status) and the product-image router.

Database rows are Lean structures; the Prisma-backed store is a record of
lists of rows; each HTTP handler becomes a pure function from store and
request to (new store, result).  Decimal prices and integer stock counts are
modelled as `Int`; JavaScript string truthiness is modelled explicitly.
-/

deriving instance DecidableEq for Except

namespace Shop

/-- Product status, stored in the `status` column (`available` / `sold_out`). -/
inductive ProdStatus where
  | available
  | soldOut
deriving DecidableEq, Repr

/-- Order status enum from `src/types/order.ts`
(`new` / `paid` / `ready_for_delivery`). -/
inductive OrderStatus where
  | new
  | paid
  | readyForDelivery
deriving DecidableEq, Repr

/-- A row of the `Product` table (fields used by the order/inventory core). -/
structure Product where
  id : Nat
  name : String
  price : Int
  quantity : Int
  status : ProdStatus
  isActive : Bool
deriving DecidableEq, Repr

/-- A row of the `ProductVariant` table. -/
structure Variant where
  id : Nat
  productId : Nat
  color : String
  size : String
  quantity : Int
  sku : String
  isActive : Bool
deriving DecidableEq, Repr

/-- A persisted `OrderItem` row (the fields written by POST /orders). -/
structure ItemRow where
  productId : Nat
  productVariantId : Option Nat
  quantity : Int
  unitPrice : Int
  selectedColor : Option String
  selectedSize : Option String
deriving DecidableEq, Repr

/-- A persisted `Order` row together with its owned `OrderItem` rows. -/
structure OrderRow where
  id : Nat
  status : OrderStatus
  totalAmount : Int
  items : List ItemRow
deriving DecidableEq, Repr

/-- The relational store: the tables touched by the order/inventory core,
plus autoincrement counters for freshly inserted rows. -/
structure DB where
  products : List Product
  variants : List Variant
  orders : List OrderRow
  nextVariantId : Nat
  nextOrderId : Nat
deriving DecidableEq, Repr

/-- One line of a POST /orders request body
(`{productId, quantity, selectedColor?, selectedSize?}`). -/
structure ReqItem where
  productId : Nat
  quantity : Int
  selectedColor : Option String
  selectedSize : Option String
deriving DecidableEq, Repr

/-- Errors surfaced by the two order routes.  `internalError` stands for a
thrown exception (a `throw new Error(...)` that the handler never expects
to hit). -/
inductive OrderError where
  | productNotFound
  | insufficientInventory
  | orderNotFound
  | internalError
deriving DecidableEq, Repr

/-- JavaScript truthiness of an optional string: `undefined`, `null` and
`""` are falsy, every other string is truthy. -/
def strTruthy : Option String → Bool
  | none => false
  | some s => !(s == "")

/-- `x || null` applied to an optional string (empty strings collapse to
null), as in the `processedItems` construction. -/
def strOrNull : Option String → Option String
  | none => none
  | some s => if s == "" then none else some s

/-- ASCII whitespace matched by the JavaScript regex `\s`
(space, tab, line feed, vertical tab, form feed, carriage return). -/
def isJsWs (c : Char) : Bool :=
  c == ' ' || c == '\t' || c == '\n' || c == '\r' ||
    c == Char.ofNat 11 || c == Char.ofNat 12

/-- Scanner for `replace(/\s+/g, '-')`: the flag records whether the
previous character was whitespace (i.e. we are inside a run whose hyphen
has already been emitted). -/
def collapseWsAux : Bool → List Char → List Char
  | _, [] => []
  | inRun, c :: rest =>
    if isJsWs c then
      if inRun then collapseWsAux true rest
      else '-' :: collapseWsAux true rest
    else c :: collapseWsAux false rest

/-- `replace(/\s+/g, '-')`: every maximal run of whitespace becomes one
hyphen. -/
def collapseWs (l : List Char) : List Char :=
  collapseWsAux false l

/-- `s.toUpperCase()` over the ASCII range. -/
def jsUpper (s : String) : String :=
  String.mk (s.data.map Char.toUpper)

/-- SKU generated for a lazily created variant:
`NAME.toUpperCase().replace(/\s+/g,'-') + '-' + COLOR.toUpperCase() + '-' +
SIZE.toUpperCase()`. -/
def mkSku (name color size : String) : String :=
  String.mk (collapseWs (jsUpper name).data) ++ "-" ++ jsUpper color ++ "-" ++ jsUpper size

/-- `findOrCreateProductVariant` from `src/api/orders.ts`: returns `none`
when color or size is falsy; otherwise finds the active variant for
(productId, color, size) or inserts a fresh one with quantity 0 and a
generated SKU.  The thrown "Product not found" becomes `internalError`. -/
def findOrCreateProductVariant (db : DB) (productId : Nat)
    (color size : Option String) : DB × Except OrderError (Option Variant) :=
  if !(strTruthy color && strTruthy size) then (db, .ok none)
  else
    match db.variants.find? (fun v =>
        decide (v.productId = productId) && v.color == color.getD "" &&
          v.size == size.getD "" && v.isActive) with
    | some v => (db, .ok (some v))
    | none =>
      match db.products.find? (fun p => decide (p.id = productId)) with
      | none => (db, .error .internalError)
      | some p =>
        ({ db with
             variants := db.variants ++
               [{ id := db.nextVariantId, productId := productId,
                  color := color.getD "", size := size.getD "", quantity := 0,
                  sku := mkSku p.name (color.getD "") (size.getD ""),
                  isActive := true }],
             nextVariantId := db.nextVariantId + 1 },
         .ok (some { id := db.nextVariantId, productId := productId,
                     color := color.getD "", size := size.getD "", quantity := 0,
                     sku := mkSku p.name (color.getD "") (size.getD ""),
                     isActive := true }))

/-- The per-item loop of POST /orders: looks the product up in the fetched
(filtered) list, resolves/creates the variant when color and size are given,
runs the inventory check against the variant quantity (or the product
quantity when no variant applies), and accumulates the processed rows and
the running total. -/
def processItems (db : DB) (fetched : List Product) :
    List ReqItem → DB × Except OrderError (List ItemRow × Int)
  | [] => (db, .ok ([], 0))
  | item :: rest =>
    match fetched.find? (fun p => decide (p.id = item.productId)) with
    | none => (db, .error .internalError)
    | some product =>
      if strTruthy item.selectedColor && strTruthy item.selectedSize then
        match findOrCreateProductVariant db item.productId
            item.selectedColor item.selectedSize with
        | (db1, .error e) => (db1, .error e)
        | (db1, .ok variantOpt) =>
          if (match variantOpt with
              | some v => decide (v.quantity < item.quantity)
              | none => false) then
            (db1, .error .insufficientInventory)
          else
            match processItems db1 fetched rest with
            | (db2, .error e) => (db2, .error e)
            | (db2, .ok (rows, total)) =>
              (db2, .ok
                ({ productId := item.productId,
                   productVariantId :=
                     match variantOpt with
                     | some v => if v.id = 0 then none else some v.id
                     | none => none,
                   quantity := item.quantity, unitPrice := product.price,
                   selectedColor := strOrNull item.selectedColor,
                   selectedSize := strOrNull item.selectedSize } :: rows,
                 product.price * item.quantity + total))
      else
        if product.quantity < item.quantity then (db, .error .insufficientInventory)
        else
          match processItems db fetched rest with
          | (db2, .error e) => (db2, .error e)
          | (db2, .ok (rows, total)) =>
            (db2, .ok
              ({ productId := item.productId, productVariantId := none,
                 quantity := item.quantity, unitPrice := product.price,
                 selectedColor := strOrNull item.selectedColor,
                 selectedSize := strOrNull item.selectedSize } :: rows,
               product.price * item.quantity + total))

/-- POST /orders: fetch the active, available products whose id appears in
the item list; reject with `productNotFound` when the row count differs
from the (non-deduplicated) item count; process the items; then insert the
order with status `new` and the computed total inside one transaction. -/
def createOrder (db : DB) (items : List ReqItem) : DB × Except OrderError OrderRow :=
  let productIds := items.map (·.productId)
  let fetched := db.products.filter (fun p =>
    productIds.contains p.id && p.isActive && decide (p.status = ProdStatus.available))
  if fetched.length ≠ productIds.length then (db, .error .productNotFound)
  else
    match processItems db fetched items with
    | (db1, .error e) => (db1, .error e)
    | (db1, .ok (rows, total)) =>
      let newOrder : OrderRow :=
        { id := db1.nextOrderId, status := .new, totalAmount := total, items := rows }
      ({ db1 with orders := db1.orders ++ [newOrder],
                  nextOrderId := db1.nextOrderId + 1 }, .ok newOrder)

/-- Static inventory-check failure condition for one request line against a
store: when both color and size are truthy, the line fails if the matching
active variant has too little stock, or if no such variant exists (the
lazily created variant starts at quantity 0, below any positive request);
otherwise the line fails if the product row has too little stock. -/
def lineFails (db : DB) (item : ReqItem) : Bool :=
  if strTruthy item.selectedColor && strTruthy item.selectedSize then
    match db.variants.find? (fun v =>
        decide (v.productId = item.productId) && v.color == item.selectedColor.getD "" &&
          v.size == item.selectedSize.getD "" && v.isActive) with
    | some v => decide (v.quantity < item.quantity)
    | none => decide (0 < item.quantity)
  else
    match db.products.find? (fun p => decide (p.id = item.productId)) with
    | some p => decide (p.quantity < item.quantity)
    | none => false

/-- The `include: { items: { include: { product ... } } }` fetch of
PUT /admin/orders/:id/status: pair every order item with its product row as
of the fetch (`none` when a foreign key dangles, which Prisma's required
relation rules out). -/
def fetchItemProducts (db : DB) : List ItemRow → Option (List (ItemRow × Product))
  | [] => some []
  | it :: rest =>
    match db.products.find? (fun p => decide (p.id = it.productId)) with
    | none => none
    | some p =>
      match fetchItemProducts db rest with
      | none => none
      | some prs => some ((it, p) :: prs)

/-- Effect of one `tx.product.update` of the deduction transaction on one
product row: the row for the item's productId is set to
`snapshotQuantity - item.quantity`, with status recomputed from that value.
`pr.2` is the product snapshot taken when the order was fetched, not the
current row. -/
def dedRow (pr : ItemRow × Product) (p : Product) : Product :=
  if p.id = pr.1.productId then
    { p with quantity := pr.2.quantity - pr.1.quantity,
             status := if pr.2.quantity - pr.1.quantity > 0 then
                         ProdStatus.available
                       else ProdStatus.soldOut }
  else p

/-- One `tx.product.update` of the deduction transaction, applied to the
whole `products` table. -/
def applyDeduction (ps : List Product) (pr : ItemRow × Product) : List Product :=
  ps.map (dedRow pr)

/-- The last item/snapshot pair of the transaction that targets the given
product id: because every update writes `snapshot - item.quantity`
absolutely, this is the write that ends up stored. -/
def lastRef (pairs : List (ItemRow × Product)) (pid : Nat) :
    Option (ItemRow × Product) :=
  match pairs with
  | [] => none
  | pr :: rest =>
    match lastRef rest pid with
    | some x => some x
    | none => if pr.1.productId = pid then some pr else none

/-- Net effect of the whole deduction transaction on one product row. -/
def finalUpd (pairs : List (ItemRow × Product)) (p : Product) : Product :=
  match lastRef pairs p.id with
  | none => p
  | some pr =>
    { p with quantity := pr.2.quantity - pr.1.quantity,
             status := if pr.2.quantity - pr.1.quantity > 0 then
                         ProdStatus.available
                       else ProdStatus.soldOut }

/-- `order.update` on the `orders` table: set the status of the row with the
given id. -/
def setOrderStatus (orders : List OrderRow) (orderId : Nat) (st : OrderStatus) :
    List OrderRow :=
  orders.map (fun o => if o.id = orderId then { o with status := st } else o)

/-- PUT /admin/orders/:id/status: fetch the order with item/product
snapshots; on a fresh transition into `paid` check every item against its
product snapshot and, if all pass, run the deduction transaction together
with the status write; any other target status only updates the status. -/
def updateOrderStatus (db : DB) (orderId : Nat) (target : OrderStatus) :
    DB × Except OrderError Unit :=
  match db.orders.find? (fun o => decide (o.id = orderId)) with
  | none => (db, .error .orderNotFound)
  | some order =>
    if target = .paid ∧ order.status ≠ .paid then
      match fetchItemProducts db order.items with
      | none => (db, .error .internalError)
      | some pairs =>
        match pairs.find? (fun pr => decide (pr.2.quantity < pr.1.quantity)) with
        | some _ => (db, .error .insufficientInventory)
        | none =>
          ({ db with products := pairs.foldl applyDeduction db.products,
                     orders := setOrderStatus db.orders orderId target }, .ok ())
    else
      ({ db with orders := setOrderStatus db.orders orderId target }, .ok ())

end Shop

namespace Img

/-- A row of the `product_images` table.  `createdAt` is a logical creation
timestamp (the store's insertion counter). -/
structure PImage where
  id : Nat
  productId : Nat
  imageUrl : String
  altText : Option String
  sortOrder : Int
  isPrimary : Bool
  isActive : Bool
  createdAt : Nat
deriving DecidableEq, Repr

/-- The store seen by the image router: the product ids that exist, the
image rows, the autoincrement id counter and the insertion clock. -/
structure ImgDB where
  productIds : List Nat
  images : List PImage
  nextImageId : Nat
  now : Nat
deriving DecidableEq, Repr

/-- Body of POST /admin/products/:id/images; `none` models an omitted
field (the handler defaults `sortOrder` to 0 and `isPrimary` to false). -/
structure CreateImageReq where
  imageUrl : String
  altText : Option String
  sortOrder : Option Int
  isPrimary : Option Bool
deriving DecidableEq, Repr

/-- Body of PUT /admin/products/:id/images/:imageId; `none` models an
omitted field (only provided fields are written). -/
structure UpdateImageReq where
  altText : Option String
  sortOrder : Option Int
  isPrimary : Option Bool
  isActive : Option Bool
deriving DecidableEq, Repr

/-- Errors surfaced by the image routes. -/
inductive ImgError where
  | productNotFound
  | imageNotFound
deriving DecidableEq, Repr

/-- `ensureSinglePrimaryImage`: clear `isPrimary` on every image of the
product that currently has it set, except the excluded id.  The spread
`...(excludeImageId && {id: {not: excludeImageId}})` drops the exclusion
when the id is 0 (JavaScript falsiness), and the query has no `isActive`
filter: inactive rows are cleared too. -/
def ensureSinglePrimaryImage (images : List PImage) (productId : Nat)
    (excludeImageId : Option Nat) : List PImage :=
  images.map (fun i =>
    if decide (i.productId = productId) && i.isPrimary &&
        (match excludeImageId with
         | none => true
         | some e => if e = 0 then true else decide (i.id ≠ e)) then
      { i with isPrimary := false }
    else i)

/-- POST /admin/products/:id/images: the first active image of a product is
forced primary; an explicit `isPrimary: true` also makes the new image
primary after clearing the others.  `isActive` comes from the schema
default `true`. -/
def createImage (db : ImgDB) (productId : Nat) (req : CreateImageReq) :
    ImgDB × Except ImgError PImage :=
  if !(db.productIds.contains productId) then (db, .error .productNotFound)
  else
    let existingImagesCount :=
      (db.images.filter (fun i => decide (i.productId = productId) && i.isActive)).length
    let shouldBePrimary := req.isPrimary.getD false || decide (existingImagesCount = 0)
    let images1 :=
      if shouldBePrimary then ensureSinglePrimaryImage db.images productId none
      else db.images
    let newImage : PImage :=
      { id := db.nextImageId, productId := productId, imageUrl := req.imageUrl,
        altText := Shop.strOrNull req.altText, sortOrder := req.sortOrder.getD 0,
        isPrimary := shouldBePrimary, isActive := true, createdAt := db.now }
    ({ db with images := images1 ++ [newImage], nextImageId := db.nextImageId + 1,
               now := db.now + 1 }, .ok newImage)

/-- PUT /admin/products/:id/images/:imageId: the lookup has no `isActive`
filter, so inactive images can be updated (and reactivated); only when the
request sets `isPrimary` to `true` are the other primaries cleared. -/
def updateImage (db : ImgDB) (productId imageId : Nat) (req : UpdateImageReq) :
    ImgDB × Except ImgError Unit :=
  match db.images.find? (fun i =>
      decide (i.id = imageId) && decide (i.productId = productId)) with
  | none => (db, .error .imageNotFound)
  | some _ =>
    let images1 :=
      if req.isPrimary = some true then
        ensureSinglePrimaryImage db.images productId (some imageId)
      else db.images
    let images2 := images1.map (fun i =>
      if i.id = imageId then
        { i with altText := match req.altText with
                            | some a => some a
                            | none => i.altText,
                 sortOrder := req.sortOrder.getD i.sortOrder,
                 isPrimary := req.isPrimary.getD i.isPrimary,
                 isActive := req.isActive.getD i.isActive }
      else i)
    ({ db with images := images2 }, .ok ())

/-- Strict ordering used by the `findFirst` of the delete route:
`orderBy: [{sortOrder: 'asc'}, {createdAt: 'asc'}]`. -/
def imgBefore (a b : PImage) : Bool :=
  a.sortOrder < b.sortOrder ||
    (decide (a.sortOrder = b.sortOrder) && a.createdAt < b.createdAt)

/-- First row of a result set under `imgBefore` (earlier list position wins
ties, matching a stable store order). -/
def firstImage : List PImage → Option PImage
  | [] => none
  | i :: rest =>
    match firstImage rest with
    | none => some i
    | some j => if imgBefore j i then some j else some i

/-- DELETE /admin/products/:id/images/:imageId: when the (possibly already
inactive) row is primary, the first remaining active image of the product
is promoted to primary; then the row is soft-deleted.  Its `isPrimary`
flag is left as it was. -/
def deleteImage (db : ImgDB) (productId imageId : Nat) :
    ImgDB × Except ImgError Unit :=
  match db.images.find? (fun i =>
      decide (i.id = imageId) && decide (i.productId = productId)) with
  | none => (db, .error .imageNotFound)
  | some existingImage =>
    let images1 :=
      if existingImage.isPrimary then
        match firstImage (db.images.filter (fun i =>
            decide (i.productId = productId) && i.isActive && decide (i.id ≠ imageId))) with
        | some nextImage =>
          db.images.map (fun i =>
            if i.id = nextImage.id then { i with isPrimary := true } else i)
        | none => db.images
      else db.images
    ({ db with images := images1.map (fun i =>
        if i.id = imageId then { i with isActive := false } else i) }, .ok ())

/-- One admin image operation. -/
inductive ImgOp where
  | create (productId : Nat) (req : CreateImageReq)
  | update (productId imageId : Nat) (req : UpdateImageReq)
  | delete (productId imageId : Nat)
deriving DecidableEq, Repr

/-- State effect of one image operation (the response is discarded). -/
def applyImgOp (db : ImgDB) : ImgOp → ImgDB
  | .create pid req => (createImage db pid req).1
  | .update pid iid req => (updateImage db pid iid req).1
  | .delete pid iid => (deleteImage db pid iid).1

/-- Run a sequence of image operations. -/
def runImgOps (db : ImgDB) (ops : List ImgOp) : ImgDB :=
  ops.foldl applyImgOp db

/-- Number of active images of the product flagged primary. -/
def activePrimaryCount (db : ImgDB) (productId : Nat) : Nat :=
  (db.images.filter (fun i =>
    decide (i.productId = productId) && i.isActive && i.isPrimary)).length

end Img

/-! Concrete stores and requests used to evaluate the model. -/

/-- One-product store: product 1 "Shirt", price 5, quantity 10, available,
active; empty variant and order tables. -/
def shirtDB : Shop.DB :=
  { products := [{ id := 1, name := "Shirt", price := 5, quantity := 10,
                   status := .available, isActive := true }],
    variants := [], orders := [], nextVariantId := 1, nextOrderId := 1 }

/-- Two request lines that repeat productId 1 (no color/size selection). -/
def reqDup : List Shop.ReqItem :=
  [{ productId := 1, quantity := 1, selectedColor := none, selectedSize := none },
   { productId := 1, quantity := 1, selectedColor := none, selectedSize := none }]

/-- One request line selecting a color/size pair for which no variant
exists. -/
def reqVariant : List Shop.ReqItem :=
  [{ productId := 1, quantity := 1, selectedColor := some "Red",
     selectedSize := some "M" }]

/-- One plain request line of 3 units of product 1. -/
def reqPlain : List Shop.ReqItem :=
  [{ productId := 1, quantity := 3, selectedColor := none, selectedSize := none }]

/-- The single order line used by the order-status fixtures. -/
def line3 : Shop.ItemRow :=
  { productId := 1, productVariantId := none, quantity := 3, unitPrice := 5,
    selectedColor := none, selectedSize := none }

/-- Store with order 1 in status `new` holding one line of 3 units of
product 1 (quantity 10 in stock). -/
def orderDB : Shop.DB :=
  { shirtDB with
    orders := [{ id := 1, status := .new, totalAmount := 15, items := [line3] }],
    nextOrderId := 2 }

/-- Store as left by a first successful payment of that order: quantity 7
in stock, order 1 already `paid`. -/
def paidDB : Shop.DB :=
  { products := [{ id := 1, name := "Shirt", price := 5, quantity := 7,
                   status := .available, isActive := true }],
    variants := [],
    orders := [{ id := 1, status := .paid, totalAmount := 15, items := [line3] }],
    nextVariantId := 1, nextOrderId := 2 }

/-- Store with a variant-bearing order line: product 1 has quantity 10,
its Red/M variant (id 7) has quantity 5, and order 1 (status `new`) holds
one line of 3 units selecting that variant. -/
def variantOrderDB : Shop.DB :=
  { products := [{ id := 1, name := "Shirt", price := 5, quantity := 10,
                   status := .available, isActive := true }],
    variants := [{ id := 7, productId := 1, color := "Red", size := "M",
                   quantity := 5, sku := "SHIRT-RED-M", isActive := true }],
    orders := [{ id := 1, status := .new, totalAmount := 15,
                 items := [{ productId := 1, productVariantId := some 7, quantity := 3,
                             unitPrice := 5, selectedColor := some "Red",
                             selectedSize := some "M" }] }],
    nextVariantId := 8, nextOrderId := 2 }

/-- Image store: product 1 exists, no images yet. -/
def imgDB0 : Img.ImgDB :=
  { productIds := [1], images := [], nextImageId := 1, now := 0 }

/-- An image-create request with every optional field omitted. -/
def plainImgReq : Img.CreateImageReq :=
  { imageUrl := "a.jpg", altText := none, sortOrder := none, isPrimary := none }

/-- Operation sequence that breaks the primary-image invariant: two images
are added (the first becomes primary), the primary one is soft-deleted
(image 2 is promoted, image 1 keeps `isPrimary = true` while inactive),
then image 1 is reactivated by an update that does not touch `isPrimary`. -/
def reactivateOps : List Img.ImgOp :=
  [ .create 1 plainImgReq,
    .create 1 { plainImgReq with imageUrl := "b.jpg" },
    .delete 1 1,
    .update 1 1 { altText := none, sortOrder := none, isPrimary := none,
                  isActive := some true } ]

/-! Helper lemmas about the deduction transaction. -/

namespace Shop

theorem dedRow_id (pr : ItemRow × Product) (p : Product) : (dedRow pr p).id = p.id := by
  simp only [dedRow]
  split <;> rfl

theorem finalUpd_nil (p : Product) : finalUpd [] p = p := rfl

theorem lastRef_cons (pr : ItemRow × Product) (rest : List (ItemRow × Product)) (pid : Nat) :
    lastRef (pr :: rest) pid =
      match lastRef rest pid with
      | some x => some x
      | none => if pr.1.productId = pid then some pr else none := rfl

theorem finalUpd_dedRow (pr : ItemRow × Product) (rest : List (ItemRow × Product))
    (p : Product) : finalUpd rest (dedRow pr p) = finalUpd (pr :: rest) p := by
  have hid := dedRow_id pr p
  cases hl : lastRef rest p.id with
  | some x =>
    have hl2 : lastRef rest (dedRow pr p).id = some x := by rw [hid, hl]
    have hc : lastRef (pr :: rest) p.id = some x := by rw [lastRef_cons, hl]
    simp only [finalUpd, hl2, hc]
    cases p with
    | mk i n c q s a =>
      simp only [dedRow]
      split <;> rfl
  | none =>
    have hl2 : lastRef rest (dedRow pr p).id = none := by rw [hid, hl]
    have hc : lastRef (pr :: rest) p.id =
        if pr.1.productId = p.id then some pr else none := by rw [lastRef_cons, hl]
    simp only [finalUpd, hl2, hc]
    by_cases h : pr.1.productId = p.id
    · rw [if_pos h]
      simp only [dedRow, if_pos h.symm]
    · rw [if_neg h]
      simp only [dedRow]
      rw [if_neg (fun hh => h (Eq.symm hh))]

theorem foldl_applyDeduction_eq_map (pairs : List (ItemRow × Product)) (ps : List Product) :
    pairs.foldl applyDeduction ps = ps.map (finalUpd pairs) := by
  induction pairs generalizing ps with
  | nil =>
    simp only [List.foldl_nil, finalUpd_nil]
    exact (List.map_id' ps).symm
  | cons pr rest ih =>
    rw [List.foldl_cons]
    show List.foldl applyDeduction (applyDeduction ps pr) rest = _
    rw [ih, applyDeduction, List.map_map]
    exact List.map_congr_left (fun p _ => finalUpd_dedRow pr rest p)

end Shop

namespace Shop

theorem lastRef_some (pairs : List (ItemRow × Product)) (pid : Nat)
    (pr : ItemRow × Product) (h : lastRef pairs pid = some pr) :
    pr ∈ pairs ∧ pr.1.productId = pid := by
  induction pairs with
  | nil => exact absurd h (by simp [lastRef])
  | cons q rest ih =>
    rw [lastRef_cons] at h
    cases hl : lastRef rest pid with
    | some x =>
      rw [hl] at h
      injection h with h
      subst h
      rcases ih hl with ⟨h1, h2⟩
      exact ⟨List.mem_cons_of_mem _ h1, h2⟩
    | none =>
      rw [hl] at h
      by_cases hq : q.1.productId = pid
      · rw [if_pos hq] at h
        injection h with h
        subst h
        exact ⟨List.mem_cons_self _ _, hq⟩
      · rw [if_neg hq] at h
        exact absurd h (by simp)

theorem fetchItemProducts_spec (db : DB) (items : List ItemRow)
    (pairs : List (ItemRow × Product))
    (h : fetchItemProducts db items = some pairs) :
    pairs.map Prod.fst = items ∧
      ∀ pr ∈ pairs,
        db.products.find? (fun p => decide (p.id = pr.1.productId)) = some pr.2 := by
  induction items generalizing pairs with
  | nil =>
    rw [fetchItemProducts] at h
    injection h with h
    subst h
    simp
  | cons it rest ih =>
    rw [fetchItemProducts] at h
    cases hf : db.products.find? (fun p => decide (p.id = it.productId)) with
    | none => rw [hf] at h; exact absurd h (by simp)
    | some p =>
      rw [hf] at h
      cases hr : fetchItemProducts db rest with
      | none => rw [hr] at h; exact absurd h (by simp)
      | some prs =>
        rw [hr] at h
        injection h with h
        subst h
        rcases ih prs hr with ⟨h1, h2⟩
        refine ⟨by simp [h1], ?_⟩
        intro pr hpr
        rcases List.mem_cons.mp hpr with h3 | h3
        · subst h3
          exact hf
        · exact h2 pr h3

theorem find?_eq_of_mem_nodup : ∀ (ps : List Product) (p : Product),
    (ps.map Product.id).Nodup → p ∈ ps →
    ps.find? (fun q => decide (q.id = p.id)) = some p := by
  intro ps
  induction ps with
  | nil => intro p _ hp; exact absurd hp (by simp)
  | cons q rest ih =>
    intro p hnodup hp
    rw [List.map_cons, List.nodup_cons] at hnodup
    by_cases hq : q.id = p.id
    · have hpq : p = q := by
        rcases List.mem_cons.mp hp with h | h
        · exact h
        · exact absurd (by rw [hq]; exact List.mem_map_of_mem Product.id h) hnodup.1
      rw [List.find?_cons_of_pos _ (by simp [hq])]
      rw [hpq]
    · have hp2 : p ∈ rest := by
        rcases List.mem_cons.mp hp with h | h
        · exact absurd (by rw [h]) hq
        · exact h
      rw [List.find?_cons_of_neg _ (by simp [hq])]
      exact ih p hnodup.2 hp2

theorem orders_all_of_find? (orders : List OrderRow) (orderId : Nat) (order : OrderRow)
    (hnodup : (orders.map OrderRow.id).Nodup)
    (hfind : orders.find? (fun o => decide (o.id = orderId)) = some order) :
    ∀ o ∈ orders, o.id = orderId → o = order := by
  intro o ho hid
  have hmem : order ∈ orders := List.mem_of_find?_eq_some hfind
  have hoid : order.id = orderId := by simpa using List.find?_some hfind
  exact List.inj_on_of_nodup_map hnodup ho hmem (by rw [hid, hoid])

theorem setOrderStatus_self (orders : List OrderRow) (orderId : Nat) (st : OrderStatus)
    (h : ∀ o ∈ orders, o.id = orderId → o.status = st) :
    setOrderStatus orders orderId st = orders := by
  unfold setOrderStatus
  have hpt : ∀ o ∈ orders,
      (if o.id = orderId then { o with status := st } else o) = o := by
    intro o ho
    by_cases hid : o.id = orderId
    · rw [if_pos hid]
      have hst := h o ho hid
      cases o
      simp_all
    · rw [if_neg hid]
  rw [List.map_congr_left hpt, List.map_id']

end Shop

namespace Shop

theorem updateOrderStatus_paid_eq (db : DB) (orderId : Nat) (order : OrderRow)
    (pairs : List (ItemRow × Product))
    (h1 : db.orders.find? (fun o => decide (o.id = orderId)) = some order)
    (h2 : order.status ≠ .paid)
    (h3 : fetchItemProducts db order.items = some pairs) :
    updateOrderStatus db orderId .paid =
      match pairs.find? (fun pr => decide (pr.2.quantity < pr.1.quantity)) with
      | some _ => (db, .error .insufficientInventory)
      | none =>
        ({ db with products := pairs.foldl applyDeduction db.products,
                   orders := setOrderStatus db.orders orderId .paid }, .ok ()) := by
  simp only [updateOrderStatus, h1, h3]
  rw [if_pos (⟨trivial, h2⟩ : True ∧ order.status ≠ OrderStatus.paid)]

theorem updateOrderStatus_other_eq (db : DB) (orderId : Nat) (order : OrderRow)
    (target : OrderStatus)
    (h1 : db.orders.find? (fun o => decide (o.id = orderId)) = some order)
    (h2 : ¬(target = .paid ∧ order.status ≠ .paid)) :
    updateOrderStatus db orderId target =
      ({ db with orders := setOrderStatus db.orders orderId target }, .ok ()) := by
  unfold updateOrderStatus
  rw [h1]
  simp only [if_neg h2]

end Shop

/-- C1: on a status update targeting `paid` for an order not already `paid`,
if some line item's quantity exceeds its product's current quantity the
request fails with InsufficientInventory and the store — order status and
all product quantities included — is unchanged; if every line passes the
check, the result is exactly the store with the whole deduction transaction
and the order-status write to `paid` applied together (all or none). -/
theorem C1_paid_transition_atomic (db : Shop.DB) (orderId : Nat) (order : Shop.OrderRow)
    (pairs : List (Shop.ItemRow × Shop.Product))
    (h1 : db.orders.find? (fun o => decide (o.id = orderId)) = some order)
    (h2 : order.status ≠ .paid)
    (h3 : Shop.fetchItemProducts db order.items = some pairs) :
    ((∃ pr ∈ pairs, pr.2.quantity < pr.1.quantity) →
        Shop.updateOrderStatus db orderId .paid = (db, .error .insufficientInventory)) ∧
    ((∀ pr ∈ pairs, ¬ pr.2.quantity < pr.1.quantity) →
        Shop.updateOrderStatus db orderId .paid =
          ({ db with products := pairs.foldl Shop.applyDeduction db.products,
                     orders := Shop.setOrderStatus db.orders orderId .paid }, .ok ())) := by
  rw [Shop.updateOrderStatus_paid_eq db orderId order pairs h1 h2 h3]
  constructor
  · intro hex
    have hsome : (pairs.find? (fun pr => decide (pr.2.quantity < pr.1.quantity))).isSome := by
      rw [List.find?_isSome]
      rcases hex with ⟨pr, hmem, hlt⟩
      exact ⟨pr, hmem, by simpa using hlt⟩
    cases hf : pairs.find? (fun pr => decide (pr.2.quantity < pr.1.quantity)) with
    | none => rw [hf] at hsome; exact absurd hsome (by simp)
    | some pr => rfl
  · intro hall
    have hf : pairs.find? (fun pr => decide (pr.2.quantity < pr.1.quantity)) = none :=
      List.find?_eq_none.mpr (fun pr hmem => by simpa using hall pr hmem)
    rw [hf]

/-- Witness for C1: paying order 1 of `orderDB` (3 units in stock: 10)
succeeds and commits the deduction and the status write together. -/
theorem C1_paid_transition_atomic_witness :
    Shop.updateOrderStatus orderDB 1 .paid =
      ({ products := [{ id := 1, name := "Shirt", price := 5, quantity := 7,
                        status := .available, isActive := true }],
         variants := [],
         orders := [{ id := 1, status := .paid, totalAmount := 15, items := [line3] }],
         nextVariantId := 1, nextOrderId := 2 }, .ok ()) := by
  have h := (C1_paid_transition_atomic orderDB 1
      { id := 1, status := .new, totalAmount := 15, items := [line3] }
      [(line3, { id := 1, name := "Shirt", price := 5, quantity := 10,
                 status := .available, isActive := true })] rfl (by decide) rfl).2
      (by decide)
  rw [h]
  rfl

/-- C6: updating an order that is already `paid` to `paid` again takes the
non-deducting branch: the store is returned entirely unchanged (every
product quantity included), and repeating the operation gives the same
result, so the transition is idempotent on order state. -/
theorem C6_paid_to_paid_no_deduction (db : Shop.DB) (orderId : Nat) (order : Shop.OrderRow)
    (hnodup : (db.orders.map Shop.OrderRow.id).Nodup)
    (h1 : db.orders.find? (fun o => decide (o.id = orderId)) = some order)
    (h2 : order.status = .paid) :
    Shop.updateOrderStatus db orderId .paid = (db, .ok ()) ∧
    Shop.updateOrderStatus (Shop.updateOrderStatus db orderId .paid).1 orderId .paid =
      Shop.updateOrderStatus db orderId .paid := by
  have hmain : Shop.updateOrderStatus db orderId .paid = (db, .ok ()) := by
    have hother := Shop.updateOrderStatus_other_eq db orderId order .paid h1
      (fun hc => hc.2 h2)
    rw [hother]
    have hset : Shop.setOrderStatus db.orders orderId .paid = db.orders :=
      Shop.setOrderStatus_self _ _ _ (fun o ho hid => by
        rw [Shop.orders_all_of_find? db.orders orderId order hnodup h1 o ho hid, h2])
    rw [hset]
  refine ⟨hmain, ?_⟩
  rw [hmain]
  exact hmain

/-- Witness for C6: re-paying the already-paid order 1 of `paidDB` leaves
the store (stock quantity 7) untouched. -/
theorem C6_paid_to_paid_no_deduction_witness :
    Shop.updateOrderStatus paidDB 1 .paid = (paidDB, .ok ()) ∧
    Shop.updateOrderStatus (Shop.updateOrderStatus paidDB 1 .paid).1 1 .paid =
      Shop.updateOrderStatus paidDB 1 .paid :=
  C6_paid_to_paid_no_deduction paidDB 1
    { id := 1, status := .paid, totalAmount := 15, items := [line3] }
    (by decide) rfl (by decide)

namespace Shop

theorem setOrderStatus_find? (orders : List OrderRow) (orderId : Nat)
    (st : OrderStatus) (pid : Nat) :
    (setOrderStatus orders orderId st).find? (fun o => decide (o.id = pid)) =
      (orders.find? (fun o => decide (o.id = pid))).map
        (fun o => if o.id = orderId then { o with status := st } else o) := by
  unfold setOrderStatus
  rw [List.find?_map]
  have hp : ((fun o => decide (o.id = pid)) ∘ fun o : OrderRow =>
      if o.id = orderId then { o with status := st } else o) =
      (fun o : OrderRow => decide (o.id = pid)) := by
    funext o
    by_cases h : o.id = orderId
    · simp [Function.comp, h]
    · simp [Function.comp, h]
  rw [hp]

theorem fetchItemProducts_products_eq (db db2 : DB) (h : db2.products = db.products) :
    ∀ items : List ItemRow, fetchItemProducts db2 items = fetchItemProducts db items := by
  intro items
  induction items with
  | nil => rfl
  | cons it rest ih => rw [fetchItemProducts, fetchItemProducts, h, ih]

end Shop

/-- C9: the paid-transition guard inspects only the order's current status.
Setting a `paid` order back to `new` succeeds and touches no product or
variant row; paying it again then runs the full inventory check against the
already-deducted stock and applies the whole deduction transaction a second
time, so the cumulative deduction for one order can exceed its line
quantities. -/
theorem C9_unpay_repay_deducts_again (db : Shop.DB) (orderId : Nat)
    (order : Shop.OrderRow) (pairs : List (Shop.ItemRow × Shop.Product))
    (h1 : db.orders.find? (fun o => decide (o.id = orderId)) = some order)
    (h2 : order.status = .paid)
    (h3 : Shop.fetchItemProducts db order.items = some pairs)
    (h4 : ∀ pr ∈ pairs, ¬ pr.2.quantity < pr.1.quantity) :
    Shop.updateOrderStatus db orderId .new =
      ({ db with orders := Shop.setOrderStatus db.orders orderId .new }, .ok ()) ∧
    Shop.updateOrderStatus
        ({ db with orders := Shop.setOrderStatus db.orders orderId .new }) orderId .paid =
      ({ db with products := pairs.foldl Shop.applyDeduction db.products,
                 orders := Shop.setOrderStatus
                   (Shop.setOrderStatus db.orders orderId .new) orderId .paid },
       .ok ()) := by
  have hstep1 : Shop.updateOrderStatus db orderId .new =
      ({ db with orders := Shop.setOrderStatus db.orders orderId .new }, .ok ()) :=
    Shop.updateOrderStatus_other_eq db orderId order .new h1 (fun hc => by cases hc.1)
  refine ⟨hstep1, ?_⟩
  have horderid : order.id = orderId := by simpa using List.find?_some h1
  have hfind1 : ({ db with orders := Shop.setOrderStatus db.orders orderId .new }).orders.find?
      (fun o => decide (o.id = orderId)) = some { order with status := .new } := by
    show (Shop.setOrderStatus db.orders orderId .new).find?
      (fun o => decide (o.id = orderId)) = some { order with status := .new }
    rw [Shop.setOrderStatus_find?, h1]
    simp [horderid]
  have h3b : Shop.fetchItemProducts
      ({ db with orders := Shop.setOrderStatus db.orders orderId .new })
      ({ order with status := Shop.OrderStatus.new }).items = some pairs := by
    rw [Shop.fetchItemProducts_products_eq db
      ({ db with orders := Shop.setOrderStatus db.orders orderId .new }) rfl]
    exact h3
  have hpaid := Shop.updateOrderStatus_paid_eq
    ({ db with orders := Shop.setOrderStatus db.orders orderId .new }) orderId
    { order with status := .new } pairs hfind1 (by intro hc; cases hc) h3b
  have hnone : pairs.find? (fun pr => decide (pr.2.quantity < pr.1.quantity)) = none :=
    List.find?_eq_none.mpr (fun pr hmem => by simpa using h4 pr hmem)
  rw [hpaid, hnone]

/-- Witness for C9: in `paidDB` (stock 7 after the first payment of 3),
unpaying and re-paying order 1 deducts again, leaving stock 4 — a
cumulative deduction of 6 for a 3-unit order. -/
theorem C9_unpay_repay_deducts_again_witness :
    Shop.updateOrderStatus paidDB 1 .new =
      ({ paidDB with orders := Shop.setOrderStatus paidDB.orders 1 .new }, .ok ()) ∧
    Shop.updateOrderStatus
        ({ paidDB with orders := Shop.setOrderStatus paidDB.orders 1 .new }) 1 .paid =
      ({ products := [{ id := 1, name := "Shirt", price := 5, quantity := 4,
                        status := .available, isActive := true }],
         variants := [],
         orders := [{ id := 1, status := .paid, totalAmount := 15, items := [line3] }],
         nextVariantId := 1, nextOrderId := 2 }, .ok ()) := by
  have h := C9_unpay_repay_deducts_again paidDB 1
    { id := 1, status := .paid, totalAmount := 15, items := [line3] }
    [(line3, { id := 1, name := "Shirt", price := 5, quantity := 7,
               status := .available, isActive := true })]
    rfl rfl rfl (by decide)
  refine ⟨h.1, ?_⟩
  rw [h.2]
  rfl

namespace Shop

theorem lastRef_eq_none (pairs : List (ItemRow × Product)) (pid : Nat)
    (h : ∀ pr ∈ pairs, pr.1.productId ≠ pid) : lastRef pairs pid = none := by
  induction pairs with
  | nil => rfl
  | cons q rest ih =>
    rw [lastRef_cons, ih (fun pr hpr => h pr (List.mem_cons_of_mem _ hpr))]
    rw [if_neg (h q (List.mem_cons_self _ _))]

end Shop

/-- C2 (amended): on a successful transition to `paid`, every deduction
targets the `Product` row — variant rows are never touched, even for lines
that carry a variant.  Each referenced product ends at its pre-transition
quantity minus the quantity of the *last* order line referencing it (each
write stores `snapshot - line quantity` absolutely, so several lines for
one product overwrite each other rather than add), and every product not
referenced by any line (and every variant) is unchanged. -/
theorem C2_deduction_targets_product_row (db : Shop.DB) (orderId : Nat)
    (order : Shop.OrderRow) (pairs : List (Shop.ItemRow × Shop.Product))
    (hnodup : (db.products.map Shop.Product.id).Nodup)
    (h1 : db.orders.find? (fun o => decide (o.id = orderId)) = some order)
    (h2 : order.status ≠ .paid)
    (h3 : Shop.fetchItemProducts db order.items = some pairs)
    (h4 : ∀ pr ∈ pairs, ¬ pr.2.quantity < pr.1.quantity) :
    (Shop.updateOrderStatus db orderId .paid).2 = .ok () ∧
    (Shop.updateOrderStatus db orderId .paid).1.variants = db.variants ∧
    (Shop.updateOrderStatus db orderId .paid).1.products =
      db.products.map (Shop.finalUpd pairs) ∧
    (∀ p ∈ db.products, (∀ it ∈ order.items, it.productId ≠ p.id) →
        Shop.finalUpd pairs p = p) ∧
    (∀ p ∈ db.products, ∀ pr, Shop.lastRef pairs p.id = some pr →
        (Shop.finalUpd pairs p).quantity = p.quantity - pr.1.quantity) := by
  have hnone : pairs.find? (fun pr => decide (pr.2.quantity < pr.1.quantity)) = none :=
    List.find?_eq_none.mpr (fun pr hmem => by simpa using h4 pr hmem)
  have hmain := Shop.updateOrderStatus_paid_eq db orderId order pairs h1 h2 h3
  rw [hnone] at hmain
  rcases Shop.fetchItemProducts_spec db order.items pairs h3 with ⟨hfst, hsnd⟩
  refine ⟨by rw [hmain], by rw [hmain], ?_, ?_, ?_⟩
  · rw [hmain]
    exact Shop.foldl_applyDeduction_eq_map pairs db.products
  · intro p _ hnoref
    have : Shop.lastRef pairs p.id = none := by
      apply Shop.lastRef_eq_none
      intro pr hpr
      exact hnoref pr.1 (by rw [← hfst]; exact List.mem_map_of_mem Prod.fst hpr)
    unfold Shop.finalUpd
    rw [this]
  · intro p hp pr hlast
    rcases Shop.lastRef_some pairs p.id pr hlast with ⟨hmem, hpid⟩
    have hfind : db.products.find? (fun q => decide (q.id = pr.1.productId)) =
        some pr.2 := hsnd pr hmem
    have hfind2 : db.products.find? (fun q => decide (q.id = p.id)) = some p :=
      Shop.find?_eq_of_mem_nodup db.products p hnodup hp
    rw [hpid] at hfind
    have hsnap : pr.2 = p := by
      have := hfind.symm.trans hfind2
      injection this
    unfold Shop.finalUpd
    simp only [hlast, hsnap]

/-- Witness for C2: paying the variant-bearing order of `variantOrderDB`
succeeds and leaves the variant table untouched. -/
theorem C2_deduction_targets_product_row_witness :
    (Shop.updateOrderStatus variantOrderDB 1 .paid).2 = .ok () ∧
    (Shop.updateOrderStatus variantOrderDB 1 .paid).1.variants =
      variantOrderDB.variants := by
  have h := C2_deduction_targets_product_row variantOrderDB 1
      { id := 1, status := .new, totalAmount := 15,
        items := [{ productId := 1, productVariantId := some 7, quantity := 3,
                    unitPrice := 5, selectedColor := some "Red",
                    selectedSize := some "M" }] }
      [({ productId := 1, productVariantId := some 7, quantity := 3, unitPrice := 5,
          selectedColor := some "Red", selectedSize := some "M" },
        { id := 1, name := "Shirt", price := 5, quantity := 10,
          status := .available, isActive := true })]
      (by decide) rfl (by decide) rfl (by decide)
  exact ⟨h.1, h.2.1⟩

/-- Counterexample to C2 as stated: in `variantOrderDB` the single order
line selects variant 7 (stock 5) with quantity 3, so the claim requires the
variant's pool to drop to 2; the transition succeeds but the variant table
is unchanged (the deduction hits the Product row instead). -/
theorem C2_counterexample :
    (Shop.updateOrderStatus variantOrderDB 1 .paid).2 = .ok () ∧
    variantOrderDB.orders.map (fun o => o.items.map Shop.ItemRow.productVariantId) =
      [[some 7]] ∧
    variantOrderDB.orders.map (fun o => o.items.map Shop.ItemRow.quantity) = [[3]] ∧
    variantOrderDB.variants.map Shop.Variant.id = [7] ∧
    variantOrderDB.variants.map Shop.Variant.quantity = [5] ∧
    (Shop.updateOrderStatus variantOrderDB 1 .paid).1.variants.map
      Shop.Variant.quantity = [5] ∧
    ¬ (5 : Int) = 5 - 3 := by decide

/-- C5 evaluated at its failing input: both request lines reference
product 1, which exists, is active and is available, yet order creation
fails with ProductNotFound because the handler compares the fetched-row
count against the non-deduplicated item count; the claim says such a
request must not fail with ProductNotFound. -/
theorem C5_duplicate_product_ids_rejected :
    shirtDB.products.map Shop.Product.id = [1] ∧
    (shirtDB.products.map Shop.Product.isActive = [true]) ∧
    (shirtDB.products.map Shop.Product.status = [.available]) ∧
    reqDup.map Shop.ReqItem.productId = [1, 1] ∧
    Shop.createOrder shirtDB reqDup = (shirtDB, .error .productNotFound) := by decide

/-- Counterexample to C3 as stated: the single line of `reqVariant` selects
Red/M of product 1, no such variant exists, so the handler lazily inserts a
quantity-0 variant and then fails the stock check — the request fails with
InsufficientInventory but the store has gained a ProductVariant row, so
"no other side effect on the store" is false. -/
theorem C3_counterexample :
    (Shop.createOrder shirtDB reqVariant).2 =
      .error Shop.OrderError.insufficientInventory ∧
    shirtDB.variants = [] ∧
    (Shop.createOrder shirtDB reqVariant).1.variants =
      [{ id := 1, productId := 1, color := "Red", size := "M", quantity := 0,
         sku := "SHIRT-RED-M", isActive := true }] := by decide

namespace Shop

theorem vext_trans {a b c : List Variant}
    (h1 : ∃ t, b = a ++ t ∧ ∀ v ∈ t, v.quantity = 0)
    (h2 : ∃ t, c = b ++ t ∧ ∀ v ∈ t, v.quantity = 0) :
    ∃ t, c = a ++ t ∧ ∀ v ∈ t, v.quantity = 0 := by
  rcases h1 with ⟨t1, hb, hz1⟩
  rcases h2 with ⟨t2, hc, hz2⟩
  refine ⟨t1 ++ t2, by rw [hc, hb, List.append_assoc], ?_⟩
  intro v hv
  rcases List.mem_append.mp hv with h | h
  · exact hz1 v h
  · exact hz2 v h

theorem findOrCreate_state (db : DB) (pid : Nat) (c s : Option String) :
    (findOrCreateProductVariant db pid c s).1.orders = db.orders ∧
    (findOrCreateProductVariant db pid c s).1.products = db.products ∧
    (findOrCreateProductVariant db pid c s).1.nextOrderId = db.nextOrderId ∧
    ∃ t, (findOrCreateProductVariant db pid c s).1.variants = db.variants ++ t ∧
      ∀ v ∈ t, v.quantity = 0 := by
  unfold findOrCreateProductVariant
  split
  · exact ⟨rfl, rfl, rfl, [], by simp, by simp⟩
  · split
    · exact ⟨rfl, rfl, rfl, [], by simp, by simp⟩
    · split
      · exact ⟨rfl, rfl, rfl, [], by simp, by simp⟩
      · exact ⟨rfl, rfl, rfl, _, rfl, by simp⟩

theorem processItems_state (fetched : List Product) :
    ∀ (items : List ReqItem) (db : DB),
      (processItems db fetched items).1.orders = db.orders ∧
      (processItems db fetched items).1.products = db.products ∧
      (processItems db fetched items).1.nextOrderId = db.nextOrderId ∧
      ∃ t, (processItems db fetched items).1.variants = db.variants ++ t ∧
        ∀ v ∈ t, v.quantity = 0 := by
  intro items
  induction items with
  | nil => exact fun db => ⟨rfl, rfl, rfl, [], by simp [processItems], by simp⟩
  | cons item rest ih =>
    intro db
    rw [processItems]
    cases hf : fetched.find? (fun p => decide (p.id = item.productId)) with
    | none => exact ⟨rfl, rfl, rfl, [], by simp, by simp⟩
    | some product =>
      simp only []
      split
      · -- variant branch
        cases hv : findOrCreateProductVariant db item.productId
            item.selectedColor item.selectedSize with
        | mk db1 r =>
          have hst := findOrCreate_state db item.productId
            item.selectedColor item.selectedSize
          rw [hv] at hst
          cases r with
          | error e => exact hst
          | ok variantOpt =>
            simp only []
            split
            · exact hst
            · cases hrec : processItems db1 fetched rest with
              | mk db2 r2 =>
                have hst2 := ih db1
                rw [hrec] at hst2
                have hcomb : db2.orders = db.orders ∧ db2.products = db.products ∧
                    db2.nextOrderId = db.nextOrderId ∧
                    ∃ t, db2.variants = db.variants ++ t ∧ ∀ v ∈ t, v.quantity = 0 := by
                  refine ⟨hst2.1.trans hst.1, hst2.2.1.trans hst.2.1,
                    hst2.2.2.1.trans hst.2.2.1, ?_⟩
                  refine vext_trans hst.2.2.2 ?_
                  exact hst2.2.2.2
                cases r2 with
                | error e => exact hcomb
                | ok pair =>
                  cases pair with
                  | mk rows total => exact hcomb
      · -- product-level branch
        split
        · exact ⟨rfl, rfl, rfl, [], by simp, by simp⟩
        · cases hrec : processItems db fetched rest with
          | mk db2 r2 =>
            have hst2 := ih db
            rw [hrec] at hst2
            cases r2 with
            | error e => exact hst2
            | ok pair =>
              cases pair with
              | mk rows total => exact hst2

end Shop

namespace Shop

theorem filter_find?_covers (ps : List Product) (pids : List Nat)
    (pred : Product → Bool)
    (hnodup : (ps.map Product.id).Nodup)
    (hsub : ∀ p, pred p = true → pids.contains p.id = true)
    (hcount : (ps.filter pred).length = pids.length) :
    ∀ pid ∈ pids, ∃ p,
      (ps.filter pred).find? (fun q => decide (q.id = pid)) = some p ∧
      ps.find? (fun q => decide (q.id = pid)) = some p := by
  intro pid hpid
  have hsubl : List.Sublist (ps.filter pred) ps := List.filter_sublist ps
  have hnf : ((ps.filter pred).map Product.id).Nodup :=
    hnodup.sublist (hsubl.map Product.id)
  have hsubset : ∀ x ∈ (ps.filter pred).map Product.id, x ∈ pids := by
    intro x hx
    rcases List.mem_map.mp hx with ⟨p, hp, hid⟩
    rcases List.mem_filter.mp hp with ⟨hp1, hp2⟩
    subst hid
    simpa using hsub p hp2
  have hcard1 : ((ps.filter pred).map Product.id).toFinset.card = pids.length := by
    rw [List.toFinset_card_of_nodup hnf, List.length_map, hcount]
  have hsub2 : ((ps.filter pred).map Product.id).toFinset ⊆ pids.toFinset := by
    intro x hx
    rw [List.mem_toFinset] at hx ⊢
    exact hsubset x hx
  have hcard2 : pids.toFinset.card ≤
      ((ps.filter pred).map Product.id).toFinset.card := by
    rw [hcard1]
    exact pids.toFinset_card_le
  have hsets := Finset.eq_of_subset_of_card_le hsub2 hcard2
  have hmemf : pid ∈ (ps.filter pred).map Product.id := by
    have hx : pid ∈ pids.toFinset := List.mem_toFinset.mpr hpid
    rw [← hsets] at hx
    exact List.mem_toFinset.mp hx
  rcases List.mem_map.mp hmemf with ⟨p, hpmem, hpid2⟩
  have hffind := find?_eq_of_mem_nodup (ps.filter pred) p hnf hpmem
  have hpsmem : p ∈ ps := (List.mem_filter.mp hpmem).1
  have hdfind := find?_eq_of_mem_nodup ps p hnodup hpsmem
  rw [hpid2] at hffind hdfind
  exact ⟨p, hffind, hdfind⟩

end Shop

namespace Shop

theorem processItems_insufficient (db : DB) (fetched : List Product) :
    ∀ items : List ReqItem,
      (∀ it ∈ items, ∃ p,
          fetched.find? (fun q => decide (q.id = it.productId)) = some p ∧
          db.products.find? (fun q => decide (q.id = it.productId)) = some p) →
      (∀ it ∈ items, 1 ≤ it.quantity) →
      (∃ it ∈ items, lineFails db it = true) →
      (processItems db fetched items).2 = .error .insufficientInventory := by
  intro items
  induction items with
  | nil =>
    intro _ _ hex
    rcases hex with ⟨it, hit, _⟩
    exact absurd hit (by simp)
  | cons item rest ih =>
    intro hfind hq hex
    rcases hfind item (List.mem_cons_self _ _) with ⟨p, hfp, hdp⟩
    rw [processItems]
    cases hf2 : fetched.find? (fun q => decide (q.id = item.productId)) with
    | none => rw [hf2] at hfp; cases hfp
    | some product =>
      have hprodeq : product = p := by
        rw [hf2] at hfp
        injection hfp
      subst hprodeq
      dsimp only
      by_cases htr : (strTruthy item.selectedColor && strTruthy item.selectedSize) = true
      · rw [if_pos htr]
        have hneg : ¬ ((!(strTruthy item.selectedColor &&
            strTruthy item.selectedSize)) = true) := by simp [htr]
        cases hvv : db.variants.find? (fun v =>
            decide (v.productId = item.productId) &&
              v.color == item.selectedColor.getD "" &&
              v.size == item.selectedSize.getD "" && v.isActive) with
        | some v =>
          have hv : findOrCreateProductVariant db item.productId
              item.selectedColor item.selectedSize = (db, .ok (some v)) := by
            unfold findOrCreateProductVariant
            rw [if_neg hneg, hvv]
          rw [hv]
          dsimp only
          by_cases hlt : v.quantity < item.quantity
          · rw [if_pos (by simpa using hlt)]
          · rw [if_neg (by simpa using hlt)]
            have hlf : lineFails db item = false := by
              unfold lineFails
              rw [if_pos htr, hvv]
              simpa using hlt
            have hexr : ∃ it ∈ rest, lineFails db it = true := by
              rcases hex with ⟨it, hit, hfl⟩
              rcases List.mem_cons.mp hit with hh | hh
              · subst hh
                rw [hlf] at hfl
                cases hfl
              · exact ⟨it, hh, hfl⟩
            have hrest := ih (fun it hit => hfind it (List.mem_cons_of_mem _ hit))
              (fun it hit => hq it (List.mem_cons_of_mem _ hit)) hexr
            cases hrec : processItems db fetched rest with
            | mk db2 r2 =>
              rw [hrec] at hrest
              cases r2 with
              | error e => simpa using hrest
              | ok pair => exact absurd hrest (by simp)
        | none =>
          have hv : findOrCreateProductVariant db item.productId
              item.selectedColor item.selectedSize =
              ({ db with
                   variants := db.variants ++
                     [{ id := db.nextVariantId, productId := item.productId,
                        color := item.selectedColor.getD "",
                        size := item.selectedSize.getD "", quantity := 0,
                        sku := mkSku product.name (item.selectedColor.getD "")
                          (item.selectedSize.getD ""),
                        isActive := true }],
                   nextVariantId := db.nextVariantId + 1 },
               .ok (some { id := db.nextVariantId, productId := item.productId,
                           color := item.selectedColor.getD "",
                           size := item.selectedSize.getD "", quantity := 0,
                           sku := mkSku product.name (item.selectedColor.getD "")
                             (item.selectedSize.getD ""),
                           isActive := true })) := by
            unfold findOrCreateProductVariant
            rw [if_neg hneg, hvv]
            dsimp only
            rw [hdp]
          rw [hv]
          dsimp only
          have hqpos : (0 : Int) < item.quantity :=
            lt_of_lt_of_le Int.one_pos (hq item (List.mem_cons_self _ _))
          rw [if_pos (by simpa using hqpos)]
      · rw [if_neg htr]
        by_cases hlt : product.quantity < item.quantity
        · rw [if_pos hlt]
        · rw [if_neg hlt]
          have hlf : lineFails db item = false := by
            unfold lineFails
            rw [if_neg htr, hdp]
            simpa using hlt
          have hexr : ∃ it ∈ rest, lineFails db it = true := by
            rcases hex with ⟨it, hit, hfl⟩
            rcases List.mem_cons.mp hit with hh | hh
            · subst hh
              rw [hlf] at hfl
              cases hfl
            · exact ⟨it, hh, hfl⟩
          have hrest := ih (fun it hit => hfind it (List.mem_cons_of_mem _ hit))
            (fun it hit => hq it (List.mem_cons_of_mem _ hit)) hexr
          cases hrec : processItems db fetched rest with
          | mk db2 r2 =>
            rw [hrec] at hrest
            cases r2 with
            | error e => simpa using hrest
            | ok pair => exact absurd hrest (by simp)

end Shop

namespace Shop

theorem createOrder_eq (db : DB) (items : List ReqItem)
    (hcount : (db.products.filter (fun p =>
        (items.map (·.productId)).contains p.id && p.isActive &&
          decide (p.status = ProdStatus.available))).length
        = (items.map (·.productId)).length) :
    createOrder db items =
      match processItems db (db.products.filter (fun p =>
          (items.map (·.productId)).contains p.id && p.isActive &&
            decide (p.status = ProdStatus.available))) items with
      | (db1, .error e) => (db1, .error e)
      | (db1, .ok (rows, total)) =>
        ({ db1 with
             orders := db1.orders ++
               [{ id := db1.nextOrderId, status := .new, totalAmount := total,
                  items := rows }],
             nextOrderId := db1.nextOrderId + 1 },
         .ok { id := db1.nextOrderId, status := .new, totalAmount := total,
               items := rows }) := by
  simp only [createOrder]
  rw [if_neg (fun hc => hc hcount)]

end Shop

/-- C3 (amended): when the product-count check passes and some request line
exceeds the stock of its checked pool (the matching active variant when
color and size are given — a missing variant counts as a zero-stock pool —
otherwise the product row), order creation fails with
InsufficientInventory, no Order row and no OrderItem row is persisted and
no product quantity changes; however, lazily created zero-quantity
ProductVariant rows may remain as a side effect. -/
theorem C3_insufficient_no_order_row (db : Shop.DB) (items : List Shop.ReqItem)
    (hnodup : (db.products.map Shop.Product.id).Nodup)
    (hq : ∀ it ∈ items, 1 ≤ it.quantity)
    (hcount : (db.products.filter (fun p =>
        (items.map (·.productId)).contains p.id && p.isActive &&
          decide (p.status = Shop.ProdStatus.available))).length
        = (items.map (·.productId)).length)
    (hfail : ∃ it ∈ items, Shop.lineFails db it = true) :
    (Shop.createOrder db items).2 = .error .insufficientInventory ∧
    (Shop.createOrder db items).1.orders = db.orders ∧
    (Shop.createOrder db items).1.products = db.products ∧
    ∃ t, (Shop.createOrder db items).1.variants = db.variants ++ t ∧
      ∀ v ∈ t, v.quantity = 0 := by
  have hfindAll : ∀ it ∈ items, ∃ p,
      (db.products.filter (fun p =>
        (items.map (·.productId)).contains p.id && p.isActive &&
          decide (p.status = Shop.ProdStatus.available))).find?
        (fun q => decide (q.id = it.productId)) = some p ∧
      db.products.find? (fun q => decide (q.id = it.productId)) = some p := by
    intro it hit
    refine Shop.filter_find?_covers db.products (items.map (·.productId)) _ hnodup
      (fun p hp => ?_) hcount it.productId (List.mem_map_of_mem _ hit)
    simp only [Bool.and_eq_true] at hp
    exact hp.1.1
  have hmain := Shop.processItems_insufficient db
    (db.products.filter (fun p =>
      (items.map (·.productId)).contains p.id && p.isActive &&
        decide (p.status = Shop.ProdStatus.available))) items hfindAll hq hfail
  have hstate := Shop.processItems_state
    (db.products.filter (fun p =>
      (items.map (·.productId)).contains p.id && p.isActive &&
        decide (p.status = Shop.ProdStatus.available))) items db
  have hco := Shop.createOrder_eq db items hcount
  cases hrec : Shop.processItems db (db.products.filter (fun p =>
      (items.map (·.productId)).contains p.id && p.isActive &&
        decide (p.status = Shop.ProdStatus.available))) items with
  | mk db1 r =>
    rw [hrec] at hmain hstate hco
    cases r with
    | error e =>
      have he : e = Shop.OrderError.insufficientInventory := by
        simpa using hmain
      subst he
      rw [hco]
      exact ⟨rfl, hstate.1, hstate.2.1, hstate.2.2.2⟩
    | ok pair => exact absurd hmain (by simp)

/-- Witness for C3: creating an order for 1 unit of product 1 in Red/M
(no such variant exists) fails with InsufficientInventory, persists no
order and leaves products untouched, while a zero-quantity variant row is
created. -/
theorem C3_insufficient_no_order_row_witness :
    (Shop.createOrder shirtDB reqVariant).2 = .error .insufficientInventory ∧
    (Shop.createOrder shirtDB reqVariant).1.orders = shirtDB.orders ∧
    (Shop.createOrder shirtDB reqVariant).1.products = shirtDB.products ∧
    ∃ t, (Shop.createOrder shirtDB reqVariant).1.variants = shirtDB.variants ++ t ∧
      ∀ v ∈ t, v.quantity = 0 :=
  C3_insufficient_no_order_row shirtDB reqVariant (by decide) (by decide)
    (by decide) (by decide)

namespace Shop

theorem processItems_ok (fetched : List Product) :
    ∀ (items : List ReqItem) (db db2 : DB) (rows : List ItemRow) (total : Int),
      processItems db fetched items = (db2, .ok (rows, total)) →
      total = (rows.map (fun r => r.unitPrice * r.quantity)).sum ∧
      rows.map ItemRow.quantity = items.map ReqItem.quantity ∧
      rows.map ItemRow.productId = items.map ReqItem.productId ∧
      ∀ r ∈ rows, ∃ p ∈ fetched, p.id = r.productId ∧ r.unitPrice = p.price := by
  intro items
  induction items with
  | nil =>
    intro db db2 rows total h
    rw [processItems] at h
    injection h with h1 h2
    injection h2 with h2
    injection h2 with hrows htot
    subst hrows
    subst htot
    simp
  | cons item rest ih =>
    intro db db2 rows total h
    rw [processItems] at h
    cases hf : fetched.find? (fun q => decide (q.id = item.productId)) with
    | none =>
      rw [hf] at h
      injection h with _ h2
      exact absurd h2 (by simp)
    | some product =>
      rw [hf] at h
      dsimp only at h
      by_cases htr : (strTruthy item.selectedColor && strTruthy item.selectedSize) = true
      · rw [if_pos htr] at h
        cases hv : findOrCreateProductVariant db item.productId
            item.selectedColor item.selectedSize with
        | mk db1 r1 =>
          rw [hv] at h
          cases r1 with
          | error e =>
            dsimp only at h
            injection h with _ h2
            exact absurd h2 (by simp)
          | ok variantOpt =>
            dsimp only at h
            cases variantOpt with
            | some v =>
              dsimp only at h
              by_cases hfl : decide (v.quantity < item.quantity) = true
              · rw [if_pos hfl] at h
                injection h with _ h2
                exact absurd h2 (by simp)
              · rw [if_neg hfl] at h
                cases hrec : processItems db1 fetched rest with
                | mk dbr rr =>
                  rw [hrec] at h
                  cases rr with
                  | error e =>
                    dsimp only at h
                    injection h with _ h2
                    exact absurd h2 (by simp)
                  | ok pairr =>
                    cases pairr with
                    | mk rows2 total2 =>
                      dsimp only at h
                      injection h with h1 h2
                      injection h2 with h2
                      injection h2 with hrows htot
                      subst hrows
                      subst htot
                      rcases ih db1 dbr rows2 total2 hrec with ⟨ih1, ih2, ih3, ih4⟩
                      refine ⟨by simp [ih1], by simp [ih2], by simp [ih3], ?_⟩
                      intro r hr
                      rcases List.mem_cons.mp hr with hh | hh
                      · subst hh
                        exact ⟨product, List.mem_of_find?_eq_some hf,
                          by simpa using List.find?_some hf, rfl⟩
                      · exact ih4 r hh
            | none =>
              dsimp only at h
              rw [if_neg (by simp)] at h
              cases hrec : processItems db1 fetched rest with
              | mk dbr rr =>
                rw [hrec] at h
                cases rr with
                | error e =>
                  dsimp only at h
                  injection h with _ h2
                  exact absurd h2 (by simp)
                | ok pairr =>
                  cases pairr with
                  | mk rows2 total2 =>
                    dsimp only at h
                    injection h with h1 h2
                    injection h2 with h2
                    injection h2 with hrows htot
                    subst hrows
                    subst htot
                    rcases ih db1 dbr rows2 total2 hrec with ⟨ih1, ih2, ih3, ih4⟩
                    refine ⟨by simp [ih1], by simp [ih2], by simp [ih3], ?_⟩
                    intro r hr
                    rcases List.mem_cons.mp hr with hh | hh
                    · subst hh
                      exact ⟨product, List.mem_of_find?_eq_some hf,
                        by simpa using List.find?_some hf, rfl⟩
                    · exact ih4 r hh
      · rw [if_neg htr] at h
        by_cases hpq : product.quantity < item.quantity
        · rw [if_pos hpq] at h
          injection h with _ h2
          exact absurd h2 (by simp)
        · rw [if_neg hpq] at h
          cases hrec : processItems db fetched rest with
          | mk dbr rr =>
            rw [hrec] at h
            cases rr with
            | error e =>
              dsimp only at h
              injection h with _ h2
              exact absurd h2 (by simp)
            | ok pairr =>
              cases pairr with
              | mk rows2 total2 =>
                dsimp only at h
                injection h with h1 h2
                injection h2 with h2
                injection h2 with hrows htot
                subst hrows
                subst htot
                rcases ih db dbr rows2 total2 hrec with ⟨ih1, ih2, ih3, ih4⟩
                refine ⟨by simp [ih1], by simp [ih2], by simp [ih3], ?_⟩
                intro r hr
                rcases List.mem_cons.mp hr with hh | hh
                · subst hh
                  exact ⟨product, List.mem_of_find?_eq_some hf,
                    by simpa using List.find?_some hf, rfl⟩
                · exact ih4 r hh

end Shop

/-- C4: every successfully created order has status `new`, a totalAmount
equal to the sum of unitPrice times quantity over its stored lines (which
correspond one-to-one, in order, to the request lines), and each stored
line's unitPrice equals the price of the referenced active, available
product at request time. -/
theorem C4_created_order_total_and_prices (db : Shop.DB)
    (items : List Shop.ReqItem) (db2 : Shop.DB) (ord : Shop.OrderRow)
    (h : Shop.createOrder db items = (db2, .ok ord)) :
    ord.status = .new ∧
    ord.totalAmount = (ord.items.map (fun r => r.unitPrice * r.quantity)).sum ∧
    ord.items.map Shop.ItemRow.quantity = items.map Shop.ReqItem.quantity ∧
    ord.items.map Shop.ItemRow.productId = items.map Shop.ReqItem.productId ∧
    ∀ r ∈ ord.items, ∃ p ∈ db.products, p.isActive = true ∧
      p.status = Shop.ProdStatus.available ∧ p.id = r.productId ∧
      r.unitPrice = p.price := by
  simp only [Shop.createOrder] at h
  by_cases hc : (db.products.filter (fun p =>
      (items.map (·.productId)).contains p.id && p.isActive &&
        decide (p.status = Shop.ProdStatus.available))).length
      ≠ (items.map (·.productId)).length
  · rw [if_pos hc] at h
    injection h with _ h2
    exact absurd h2 (by simp)
  · rw [if_neg hc] at h
    cases hrec : Shop.processItems db (db.products.filter (fun p =>
        (items.map (·.productId)).contains p.id && p.isActive &&
          decide (p.status = Shop.ProdStatus.available))) items with
    | mk db1 r1 =>
      rw [hrec] at h
      cases r1 with
      | error e =>
        dsimp only at h
        injection h with _ h2
        exact absurd h2 (by simp)
      | ok pair =>
        cases pair with
        | mk rows total =>
          dsimp only at h
          injection h with h1 h2
          injection h2 with h2
          rcases Shop.processItems_ok _ items db db1 rows total hrec with
            ⟨ht, hquant, hpid, hprice⟩
          subst h2
          refine ⟨rfl, by simpa using ht, by simpa using hquant,
            by simpa using hpid, ?_⟩
          intro r hr
          rcases hprice r (by simpa using hr) with ⟨p, hpmem, hpidr, hpr⟩
          rcases List.mem_filter.mp hpmem with ⟨hpdb, hpred⟩
          simp only [Bool.and_eq_true] at hpred
          refine ⟨p, hpdb, hpred.1.2, ?_, hpidr, hpr⟩
          simpa using hpred.2

/-- Witness for C4: creating the 3-unit order of `reqPlain` against
`shirtDB` yields an order with status `new`, total 15 = 5 × 3, and a
unitPrice snapshot of 5. -/
theorem C4_created_order_total_and_prices_witness :
    Shop.createOrder shirtDB reqPlain =
      ({ products := [{ id := 1, name := "Shirt", price := 5, quantity := 10,
                        status := .available, isActive := true }],
         variants := [],
         orders := [{ id := 1, status := .new, totalAmount := 15,
                      items := [{ productId := 1, productVariantId := none,
                                  quantity := 3, unitPrice := 5,
                                  selectedColor := none,
                                  selectedSize := none }] }],
         nextVariantId := 1, nextOrderId := 2 },
       .ok { id := 1, status := .new, totalAmount := 15,
             items := [{ productId := 1, productVariantId := none, quantity := 3,
                         unitPrice := 5, selectedColor := none,
                         selectedSize := none }] }) ∧
    ({ id := 1, status := .new, totalAmount := 15,
       items := [{ productId := 1, productVariantId := none, quantity := 3,
                   unitPrice := 5, selectedColor := none,
                   selectedSize := none }] } : Shop.OrderRow).status = .new ∧
    ({ id := 1, status := .new, totalAmount := 15,
       items := [{ productId := 1, productVariantId := none, quantity := 3,
                   unitPrice := 5, selectedColor := none,
                   selectedSize := none }] } : Shop.OrderRow).totalAmount =
      (({ id := 1, status := .new, totalAmount := 15,
          items := [{ productId := 1, productVariantId := none, quantity := 3,
                      unitPrice := 5, selectedColor := none,
                      selectedSize := none }] } : Shop.OrderRow).items.map
        (fun r => r.unitPrice * r.quantity)).sum := by
  have h := C4_created_order_total_and_prices shirtDB reqPlain
    { products := [{ id := 1, name := "Shirt", price := 5, quantity := 10,
                     status := .available, isActive := true }],
      variants := [],
      orders := [{ id := 1, status := .new, totalAmount := 15,
                   items := [{ productId := 1, productVariantId := none,
                               quantity := 3, unitPrice := 5,
                               selectedColor := none, selectedSize := none }] }],
      nextVariantId := 1, nextOrderId := 2 }
    { id := 1, status := .new, totalAmount := 15,
      items := [{ productId := 1, productVariantId := none, quantity := 3,
                  unitPrice := 5, selectedColor := none, selectedSize := none }] }
    rfl
  exact ⟨rfl, h.1, h.2.1⟩

/-- C8: when an order line carries both a (non-empty) color and size for
which no active variant of its product exists, processing that line inserts
a fresh variant with quantity 0 whose SKU is the product name uppercased
with whitespace runs collapsed to hyphens, followed by the uppercased color
and uppercased size joined by hyphens — and the line's stock check then
runs against that variant's quantity (0), so any positive request fails
with InsufficientInventory. -/
theorem C8_lazy_variant_creation (db : Shop.DB) (fetched : List Shop.Product)
    (item : Shop.ReqItem) (rest : List Shop.ReqItem) (product : Shop.Product)
    (color size : String)
    (hcol : item.selectedColor = some color) (hsize : item.selectedSize = some size)
    (hc : color ≠ "") (hs : size ≠ "")
    (hfp : fetched.find? (fun q => decide (q.id = item.productId)) = some product)
    (hdp : db.products.find? (fun p => decide (p.id = item.productId)) = some product)
    (hvv : db.variants.find? (fun v =>
        decide (v.productId = item.productId) && v.color == color && v.size == size &&
          v.isActive) = none)
    (hq : 1 ≤ item.quantity) :
    Shop.processItems db fetched (item :: rest) =
      ({ db with
           variants := db.variants ++
             [{ id := db.nextVariantId, productId := item.productId,
                color := color, size := size, quantity := 0,
                sku := String.mk (Shop.collapseWs (Shop.jsUpper product.name).data) ++
                  "-" ++ Shop.jsUpper color ++ "-" ++ Shop.jsUpper size,
                isActive := true }],
           nextVariantId := db.nextVariantId + 1 },
       .error .insufficientInventory) := by
  rw [Shop.processItems, hfp]
  dsimp only
  have htr : (Shop.strTruthy item.selectedColor &&
      Shop.strTruthy item.selectedSize) = true := by
    rw [hcol, hsize]
    simp [Shop.strTruthy, hc, hs]
  rw [if_pos htr]
  have hv : Shop.findOrCreateProductVariant db item.productId
      item.selectedColor item.selectedSize =
      ({ db with
           variants := db.variants ++
             [{ id := db.nextVariantId, productId := item.productId,
                color := color, size := size, quantity := 0,
                sku := Shop.mkSku product.name color size, isActive := true }],
           nextVariantId := db.nextVariantId + 1 },
       .ok (some { id := db.nextVariantId, productId := item.productId,
                   color := color, size := size, quantity := 0,
                   sku := Shop.mkSku product.name color size,
                   isActive := true })) := by
    rw [hcol, hsize]
    unfold Shop.findOrCreateProductVariant
    rw [if_neg (by simp [Shop.strTruthy, hc, hs])]
    dsimp only [Option.getD]
    rw [hvv]
    dsimp only
    rw [hdp]
  rw [hv]
  dsimp only
  rw [if_pos (by simpa using lt_of_lt_of_le Int.one_pos hq)]
  rfl

/-- Witness for C8: the Red/M line of `reqVariant` against `shirtDB`
creates variant SHIRT-RED-M with quantity 0 and fails the stock check. -/
theorem C8_lazy_variant_creation_witness :
    Shop.processItems shirtDB shirtDB.products reqVariant =
      ({ products := [{ id := 1, name := "Shirt", price := 5, quantity := 10,
                        status := .available, isActive := true }],
         variants := [{ id := 1, productId := 1, color := "Red", size := "M",
                        quantity := 0, sku := "SHIRT-RED-M", isActive := true }],
         orders := [], nextVariantId := 2, nextOrderId := 1 },
       .error .insufficientInventory) := by
  have h := C8_lazy_variant_creation shirtDB shirtDB.products
    { productId := 1, quantity := 1, selectedColor := some "Red",
      selectedSize := some "M" } []
    { id := 1, name := "Shirt", price := 5, quantity := 10,
      status := .available, isActive := true }
    "Red" "M" rfl rfl (by decide) (by decide) rfl rfl rfl (by decide)
  rw [show reqVariant =
        [{ productId := 1, quantity := 1, selectedColor := some "Red",
           selectedSize := some "M" }] from rfl]
  rw [h]
  rfl

/-- C10: adding an image to a product with zero active images stores it
with isPrimary = true regardless of the request (even `isPrimary: false`);
adding to a product that already has an active image, with a request that
does not set isPrimary to true, stores it with isPrimary = false.  The
returned image is the stored one (appended last). -/
theorem C10_first_image_forced_primary (db : Img.ImgDB) (pid : Nat)
    (req : Img.CreateImageReq)
    (hp : db.productIds.contains pid = true) :
    ((db.images.filter (fun i =>
        decide (i.productId = pid) && i.isActive)).length = 0 →
      (Img.createImage db pid req).2.map Img.PImage.isPrimary = .ok true ∧
      ((Img.createImage db pid req).1.images.getLast?).map Img.PImage.isPrimary =
        some true) ∧
    ((db.images.filter (fun i =>
        decide (i.productId = pid) && i.isActive)).length ≠ 0 →
      req.isPrimary ≠ some true →
      (Img.createImage db pid req).2.map Img.PImage.isPrimary = .ok false ∧
      ((Img.createImage db pid req).1.images.getLast?).map Img.PImage.isPrimary =
        some false) := by
  constructor
  · intro h0
    simp only [Img.createImage, hp, Bool.not_true, Bool.false_eq_true, if_false, h0]
    simp [Except.map, List.getLast?_concat]
  · intro hn hreq
    have hfalse : req.isPrimary.getD false = false := by
      cases hb : req.isPrimary with
      | none => rfl
      | some b =>
        cases b with
        | true => exact absurd hb hreq
        | false => rfl
    have hcnt : decide ((db.images.filter (fun i =>
        decide (i.productId = pid) && i.isActive)).length = 0) = false := by
      simpa using hn
    simp only [Img.createImage, hp, Bool.not_true, Bool.false_eq_true, if_false,
      hfalse, hcnt, Bool.or_self]
    simp [Except.map, List.getLast?_concat]

/-- Witness for C10: in `imgDB0` (no images) a create request with
`isPrimary: false` is stored primary anyway; after that, a second plain
create request is stored non-primary. -/
theorem C10_first_image_forced_primary_witness :
    (Img.createImage imgDB0 1
      { imageUrl := "a.jpg", altText := none, sortOrder := none,
        isPrimary := some false }).2.map Img.PImage.isPrimary = .ok true ∧
    (Img.createImage
      { productIds := [1],
        images := [{ id := 1, productId := 1, imageUrl := "a.jpg", altText := none,
                     sortOrder := 0, isPrimary := true, isActive := true,
                     createdAt := 0 }],
        nextImageId := 2, now := 1 } 1 plainImgReq).2.map Img.PImage.isPrimary =
      .ok false := by
  constructor
  · exact ((C10_first_image_forced_primary imgDB0 1
      { imageUrl := "a.jpg", altText := none, sortOrder := none,
        isPrimary := some false } (by decide)).1 (by decide)).1
  · exact ((C10_first_image_forced_primary
      { productIds := [1],
        images := [{ id := 1, productId := 1, imageUrl := "a.jpg", altText := none,
                     sortOrder := 0, isPrimary := true, isActive := true,
                     createdAt := 0 }],
        nextImageId := 2, now := 1 } 1 plainImgReq (by decide)).2
      (by decide) (by decide)).1

/-- C7 evaluated at its failing sequence: adding two images to product 1,
soft-deleting the primary one (which promotes image 2 but leaves
isPrimary = true on the now-inactive image 1), and then reactivating
image 1 via an update that does not touch isPrimary leaves TWO active
images with isPrimary = true — the invariant the code's own
`ensureSinglePrimaryImage` helper is meant to maintain. -/
theorem C7_reactivation_breaks_primary_invariant :
    Img.activePrimaryCount (Img.runImgOps imgDB0 reactivateOps) 1 = 2 ∧
    Img.activePrimaryCount imgDB0 1 = 0 := by decide
